import Mathlib

/-!
Shallow embedding of the `statefuld` registry (src/lib/statefuld.ts).

The registry is a four-level keyed hierarchy
  Store / Classes / Branches / Instances / Properties
held in JavaScript `Map`s, plus a process-wide `currentBranch` string.
JavaScript `Map`s are embedded as insertion-ordered association lists
(`Map.set` replaces the value at the existing position, or appends at the
end; `Map.get` returns `undefined`, modelled as `none`, when the key is
absent).  JavaScript objects are embedded as a constructor name plus a
property bag: reading an absent property yields `undefined` (`none`),
and the source code only ever tests `!== undefined`, so a property whose
stored value is `undefined` is indistinguishable from an absent one.
-/

namespace statefuld

/-- Association list with JS `Map` semantics (insertion order, unique keys). -/
def AList (κ α : Type) : Type := List (κ × α)

/-- `Map.get`: the value at a key, `none` (JS `undefined`) when absent. -/
def alGet {κ α : Type} [DecidableEq κ] : AList κ α → κ → Option α
  | [], _ => none
  | (k, v) :: m, q => if k = q then some v else alGet m q

/-- `Map.has`. On a JS `Map`, `has k` holds exactly when `get k` is defined. -/
def alHas {κ α : Type} [DecidableEq κ] (m : AList κ α) (q : κ) : Bool :=
  (alGet m q).isSome

/-- `Map.set`: replace in place at an existing key, append otherwise. -/
def alSet {κ α : Type} [DecidableEq κ] : AList κ α → κ → α → AList κ α
  | [], k, v => [(k, v)]
  | (k', v') :: m, k, v => if k' = k then (k, v) :: m else (k', v') :: alSet m k v

/-- JS values stored opaquely by the cache (enough structure for the examples
of the spec: strings and numbers).  Instance ids are JS values too, since the
id may be read off the key property of the payload. -/
inductive JsVal : Type where
  | str : String → JsVal
  | num : Int → JsVal
deriving DecidableEq, Repr

/-- A JS object at the registry boundary: runtime constructor name plus a
bag of named properties.  An absent name reads as `undefined`. -/
structure Obj : Type where
  ctorName : String
  props : AList String JsVal

/-- `obj[prop]` — `none` is JS `undefined`. -/
def objGet (o : Obj) (p : String) : Option JsVal :=
  alGet o.props p

/-- `obj[prop] = v`. -/
def objSet (o : Obj) (p : String) (v : JsVal) : Obj :=
  { o with props := alSet o.props p v }

/-- `new Set(xs)` on a JS array: deduplicate keeping the first occurrence,
preserving insertion order. -/
def jsSetOfList (l : List String) : List String :=
  l.foldl (fun acc x => if x ∈ acc then acc else acc ++ [x]) []

/-- The `dProps` argument of `registerClass`: `Array<string> | Set<string>`.
A JS `Set` carries its insertion-ordered elements. -/
inductive PropsArg : Type where
  | arr : List String → PropsArg
  | set : List String → PropsArg

/-- The test `dProps === undefined || dProps[0] === undefined` from
`registerClass`, as the optional value it inspects: `dProps[0]` is the
element at index 0 for an array, but a JS `Set` has no indexed elements,
so indexing any `Set` yields `undefined`. -/
def propsIndex0 : Option PropsArg → Option String
  | none => none
  | some (.arr l) => l.head?
  | some (.set _) => none

/-- The stored form of `dProps`:
`dProps instanceof Array ? new Set(dProps) : dProps`. -/
def propsToSet : PropsArg → List String
  | .arr l => jsSetOfList l
  | .set l => l

-- 4. Properties of one instance: InstanceProps = Map<string, any>
/-- Persisted properties of one instance. -/
def InstanceProps : Type := AList String JsVal

-- 3. Instances of a class in one branch: SetOfInstances = Map<string, InstanceProps>
/-- Instances of a class inside one branch, keyed by instance id. -/
def SetOfInstances : Type := AList JsVal InstanceProps

-- 2. Branches: Branches = Map<string, SetOfInstances>
/-- Branch pools of a class. -/
def Branches : Type := AList String SetOfInstances

/-- `FnGetSourceInstanceByKey`: callback fetching a live source object. -/
def FnGetSourceInstanceByKey : Type := String → Obj

-- 1. A class node.  The source constructor defaults `keyProp` to "id", so
-- the stored field is always a plain string; the `getCurrentBranch` closure
-- just reads the current branch of the registry at call time, which the
-- operations below receive through the store state.
/-- One registered class: tracked property names, branch pools, key
property name and the optional by-key lookup callback. -/
structure ClassNode : Type where
  dProps : List String
  branchNodes : Branches
  keyProp : String
  fnGetSourceInstanceByKey : Option FnGetSourceInstanceByKey

-- 0. The storage itself plus the process-wide current branch.
/-- The whole registry state: `statefuld.storage` and
`statefuld.currentBranch`. -/
structure Store : Type where
  storage : AList String ClassNode
  currentBranch : String

/-- Initial registry: empty storage, current branch `"*"`. -/
def emptyStore : Store :=
  { storage := [], currentBranch := "*" }

/-- `registerClass(subjectClass, dProps, keyProp?, fnGetSourceInstanceByKey?)`.
`subjectClass` is a literal class name or an object whose constructor name
is used.  Returns the boolean result and the new store. -/
def registerClass (s : Store) (subjectClass : String ⊕ Obj)
    (dProps : Option PropsArg) (keyProp : Option String)
    (fnGet : Option FnGetSourceInstanceByKey) : Bool × Store :=
  let className := match subjectClass with
    | .inl n => n
    | .inr o => o.ctorName
  if alHas s.storage className then
    (false, s)
  else if (propsIndex0 dProps).isNone then
    -- dProps === undefined || dProps[0] === undefined
    (false, s)
  else
    match dProps with
    | none => (false, s)
    | some dp =>
      let classNode : ClassNode :=
        { dProps := propsToSet dp
          branchNodes := []
          keyProp := keyProp.getD "id"
          fnGetSourceInstanceByKey := fnGet }
      (true, { s with storage := alSet s.storage className classNode })

/-- The branch-assignment tail of `switch`: already-current is a no-op,
otherwise `currentBranch` is reassigned; both return `true`. -/
def switchTo (s : Store) (branch : String) : Bool × Store :=
  if branch = s.currentBranch then
    (true, s)
  else
    (true, { s with currentBranch := branch })

/-- `switch(branch?)`: with no argument, return `true` if already on `"*"`,
else delegate to the tail with the default branch; with an argument, defer to the tail. -/
def switch (s : Store) (branch : Option String) : Bool × Store :=
  match branch with
  | none =>
    if s.currentBranch = "*" then (true, s)
    else switchTo s "*"
  | some b => switchTo s b

/-- Resolution of the instance id:
`forcedId === undefined ? obj[classNode.keyProp] : forcedId`.  A forced id
is a string; a derived one is whatever JS value sits in the key property. -/
def resolveId (o : Obj) (keyProp : String) (forcedId : Option String) : Option JsVal :=
  match forcedId with
  | some f => some (.str f)
  | none => objGet o keyProp

/-- The `dProps.forEach` loop of `stash`: for each tracked property defined
on the payload, write it into the instance record. -/
def stashProps (dProps : List String) (payload : Obj) (inst : InstanceProps) :
    InstanceProps :=
  dProps.foldl
    (fun m p =>
      match objGet payload p with
      | some v => alSet m p v
      | none => m)
    inst

/-- The lazy branch creation of `stash`: keep `branchNodes` when the
current branch exists, otherwise add an empty pool for it. -/
def ensuredBranches (cn : ClassNode) (b : String) : Branches :=
  if alHas cn.branchNodes b then cn.branchNodes
  else alSet cn.branchNodes b []

/-- `stash(payloadObj, forcedClassName?, forcedId?)`.  Lazily creates the
pool of the current branch and the instance record, then merges the defined
tracked properties of the payload into the record. -/
def stash (s : Store) (payload : Obj) (forcedClassName forcedId : Option String) :
    Bool × Store :=
  let className := forcedClassName.getD payload.ctorName
  match alGet s.storage className with
  | none => (false, s)  -- class not yet registered
  | some classNode =>
    match resolveId payload classNode.keyProp forcedId with
    | none => (false, s)  -- no id defined
    | some id =>
      -- lazy-create the branch pool for the current branch
      let branches := ensuredBranches classNode s.currentBranch
      let pool := (alGet branches s.currentBranch).getD []
      -- lazy-create the instance record
      let inst := (alGet pool id).getD []
      let inst' := stashProps classNode.dProps payload inst
      let classNode' :=
        { classNode with branchNodes := alSet branches s.currentBranch (alSet pool id inst') }
      (true, { s with storage := alSet s.storage className classNode' })

/-- The `dProps.forEach` loop of `reassign`: for each tracked property with
a stored entry, write the stored value onto the target. -/
def reassignProps (dProps : List String) (inst : InstanceProps) (target : Obj) : Obj :=
  dProps.foldl
    (fun t p =>
      match alGet inst p with
      | some v => objSet t p v
      | none => t)
    target

/-- `reassign(targetObj, forcedClassName?, forcedId?)`.  Purely reads the
store; returns the boolean result, the (possibly updated) target and the
store it leaves behind. -/
def reassign (s : Store) (target : Obj) (forcedClassName forcedId : Option String) :
    Bool × Obj × Store :=
  let className := forcedClassName.getD target.ctorName
  match alGet s.storage className with
  | none => (false, target, s)  -- class not yet registered
  | some classNode =>
    match resolveId target classNode.keyProp forcedId with
    | none => (false, target, s)  -- no id defined
    | some id =>
      if ¬ alHas classNode.branchNodes s.currentBranch then
        (false, target, s)  -- missing branch: cache miss
      else
        match (alGet classNode.branchNodes s.currentBranch).bind (fun pool => alGet pool id) with
        | none => (false, target, s)  -- id never stored: cache miss
        | some inst => (true, reassignProps classNode.dProps inst target, s)

/-- Result of `stashByKey`: `none` models a thrown `TypeError` (calling an
`undefined` callback); `some (r, s)` is normal completion with JS return
value `r` (`none` being `undefined`, from the missing `return` on the
delegation path) and final store `s`. -/
def stashByKey (s : Store) (className id : String) (forcedPayload : Option Obj) :
    Option (Option Bool × Store) :=
  match alGet s.storage className with
  | none => some (some false, s)  -- class not yet registered: `return false`
  | some classNode =>
    match forcedPayload with
    | some payload =>
      -- `this.stash(payload, className, id);` with no `return`
      some (none, (stash s payload (some className) (some id)).2)
    | none =>
      match classNode.fnGetSourceInstanceByKey with
      | none => none  -- `undefined(id)` throws a TypeError
      | some f => some (none, (stash s (f id) (some className) (some id)).2)

/-- Observation: the instance record stored for class `c`, branch `b`,
instance id `id` — `none` when any level of the hierarchy is missing. -/
def storedRecord (s : Store) (c b : String) (id : JsVal) : Option InstanceProps :=
  (alGet s.storage c).bind fun cn =>
    (alGet cn.branchNodes b).bind fun pool => alGet pool id

/-- Observation: the value stored for property `p` of instance `id` of
class `c` under branch `b`. -/
def storedVal (s : Store) (c b : String) (id : JsVal) (p : String) : Option JsVal :=
  (storedRecord s c b id).bind fun inst => alGet inst p

/-- The cache-miss condition of `reassign`: unregistered class,
unresolvable instance id, or no stored record under the current branch
(which covers both a missing branch pool and a missing instance). -/
def reassignMiss (s : Store) (t : Obj) (fc fi : Option String) : Prop :=
  match alGet s.storage (fc.getD t.ctorName) with
  | none => True
  | some cn =>
    match resolveId t cn.keyProp fi with
    | none => True
    | some id => storedRecord s (fc.getD t.ctorName) s.currentBranch id = none

/-! Concrete fixtures used to instantiate the general theorems. -/

/-- A registry holding one class `"Hero"` with tracked properties
`{"a","b"}`, key property `"id"` and no source lookup. -/
def regHero : Store :=
  (registerClass emptyStore (.inl "Hero") (some (.arr ["a", "b"])) (some "id") none).2

/-- Full payload `{id:"x", a:0, b:2}`. -/
def hx0 : Obj := ⟨"Hero", [("id", .str "x"), ("a", .num 0), ("b", .num 2)]⟩

/-- Partial payload `{id:"x", a:1}` (b omitted). -/
def hx1 : Obj := ⟨"Hero", [("id", .str "x"), ("a", .num 1)]⟩

/-- `regHero` after stashing the full payload `hx0` for instance `"x"`. -/
def sAfterFull : Store := (stash regHero hx0 (some "Hero") (some "x")).2

/-- A registry holding one class `"Gad"` with tracked properties `{"a"}`
and default key property. -/
def regGad : Store :=
  (registerClass emptyStore (.inl "Gad") (some (.arr ["a"])) none none).2

/-- Payload `{id:"x", a:1, z:99}` — `z` is untracked for `"Gad"`. -/
def gadPayload : Obj := ⟨"Gad", [("id", .str "x"), ("a", .num 1), ("z", .num 99)]⟩

/-- Target `{id:"x", z:0}`. -/
def gadTarget : Obj := ⟨"Gad", [("id", .str "x"), ("z", .num 0)]⟩

/-- `regGad` after stashing `gadPayload` for instance `"x"`. -/
def sGad : Store := (stash regGad gadPayload (some "Gad") (some "x")).2

/-- A payload defining no tracked property of the class `"Hero"`. -/
def heroNoProps : Obj := ⟨"Hero", [("z", .num 5)]⟩

/-- A blank `"Hero"` target object. -/
def heroFreshTarget : Obj := ⟨"Hero", []⟩

section Lemmas

variable {κ α : Type} [DecidableEq κ]

theorem alGet_alSet (m : AList κ α) (k : κ) (v : α) (q : κ) :
    alGet (alSet m k v) q = if k = q then some v else alGet m q := by
  induction m with
  | nil => simp [alGet, alSet]
  | cons hd tl ih =>
    obtain ⟨k', v'⟩ := hd
    simp only [alSet]
    by_cases hk : k' = k
    · subst hk
      simp only [if_pos rfl, alGet]
      by_cases hq : k' = q <;> simp [hq]
    · rw [if_neg hk]
      simp only [alGet, ih]
      by_cases hq : k' = q
      · subst hq
        have hk2 : ¬ k = k' := fun h => hk h.symm
        simp [hk2]
      · simp [hq]

theorem alGet_alSet_self (m : AList κ α) (k : κ) (v : α) :
    alGet (alSet m k v) k = some v := by
  simp [alGet_alSet]

theorem alGet_alSet_ne (m : AList κ α) (k : κ) (v : α) (q : κ) (h : k ≠ q) :
    alGet (alSet m k v) q = alGet m q := by
  simp [alGet_alSet, h]

theorem stashProps_get (l : List String) (payload : Obj) (inst : InstanceProps)
    (q : String) :
    alGet (stashProps l payload inst) q =
      if q ∈ l ∧ (objGet payload q).isSome then objGet payload q
      else alGet inst q := by
  induction l generalizing inst with
  | nil => simp [stashProps]
  | cons p tl ih =>
    show alGet (stashProps tl payload _) q = _
    rw [ih]
    by_cases hq : q ∈ tl ∧ (objGet payload q).isSome
    · simp only [if_pos hq]
      have : q ∈ p :: tl ∧ (objGet payload q).isSome := ⟨List.mem_cons_of_mem _ hq.1, hq.2⟩
      simp [this]
    · simp only [if_neg hq]
      by_cases hpq : p = q
      · subst hpq
        cases hv : objGet payload p with
        | none =>
          have : ¬ (p ∈ p :: tl ∧ (objGet payload p).isSome) := by
            simp [hv]
          simp [this]
        | some v =>
          have hmem : p ∈ p :: tl ∧ (objGet payload p).isSome := by
            simp [hv]
          simp [hmem, hv, alGet_alSet_self]
      · have hiff : (q ∈ p :: tl ∧ (objGet payload q).isSome) ↔
            (q ∈ tl ∧ (objGet payload q).isSome) := by
          constructor
          · rintro ⟨hm, hs⟩
            rcases List.mem_cons.mp hm with h | h
            · exact absurd h.symm hpq
            · exact ⟨h, hs⟩
          · rintro ⟨hm, hs⟩
            exact ⟨List.mem_cons_of_mem _ hm, hs⟩
        rw [if_neg (fun h => hq (hiff.mp h))]
        cases hv : objGet payload p with
        | none => rfl
        | some v => simp [alGet_alSet_ne _ _ _ _ hpq]

theorem reassignProps_ctorName (l : List String) (inst : InstanceProps) (t : Obj) :
    (reassignProps l inst t).ctorName = t.ctorName := by
  induction l generalizing t with
  | nil => rfl
  | cons p tl ih =>
    have step : reassignProps (p :: tl) inst t =
        reassignProps tl inst
          (match alGet inst p with
           | some v => objSet t p v
           | none => t) := rfl
    rw [step, ih]
    cases alGet inst p <;> rfl

theorem reassignProps_get (l : List String) (inst : InstanceProps) (t : Obj)
    (q : String) :
    objGet (reassignProps l inst t) q =
      if q ∈ l ∧ (alGet inst q).isSome then alGet inst q
      else objGet t q := by
  induction l generalizing t with
  | nil => simp [reassignProps]
  | cons p tl ih =>
    show objGet (reassignProps tl inst _) q = _
    rw [ih]
    by_cases hq : q ∈ tl ∧ (alGet inst q).isSome
    · simp only [if_pos hq]
      have : q ∈ p :: tl ∧ (alGet inst q).isSome := ⟨List.mem_cons_of_mem _ hq.1, hq.2⟩
      simp [this]
    · simp only [if_neg hq]
      by_cases hpq : p = q
      · subst hpq
        cases hv : alGet inst p with
        | none =>
          have : ¬ (p ∈ p :: tl ∧ (alGet inst p).isSome) := by
            simp [hv]
          simp [this]
        | some v =>
          have hmem : p ∈ p :: tl ∧ (alGet inst p).isSome := by
            simp [hv]
          simp [hmem, hv, objGet, objSet, alGet_alSet_self]
      · have hiff : (q ∈ p :: tl ∧ (alGet inst q).isSome) ↔
            (q ∈ tl ∧ (alGet inst q).isSome) := by
          constructor
          · rintro ⟨hm, hs⟩
            rcases List.mem_cons.mp hm with h | h
            · exact absurd h.symm hpq
            · exact ⟨h, hs⟩
          · rintro ⟨hm, hs⟩
            exact ⟨List.mem_cons_of_mem _ hm, hs⟩
        rw [if_neg (fun h => hq (hiff.mp h))]
        cases hv : alGet inst p with
        | none => rfl
        | some v => simp [objGet, objSet, alGet_alSet_ne _ _ _ _ hpq]

theorem ensuredBranches_get (cn : ClassNode) (b : String) :
    alGet (ensuredBranches cn b) b = some ((alGet cn.branchNodes b).getD []) := by
  unfold ensuredBranches alHas
  cases h : alGet cn.branchNodes b with
  | none => simp [h, alGet_alSet_self]
  | some pool => simp [h]

theorem stash_eq (s : Store) (c : String) (cn : ClassNode) (payload : Obj) (i : String)
    (h : alGet s.storage c = some cn) :
    stash s payload (some c) (some i) =
      (true,
        Store.mk
          (alSet s.storage c
            (ClassNode.mk cn.dProps
              (alSet (ensuredBranches cn s.currentBranch) s.currentBranch
                (alSet ((alGet cn.branchNodes s.currentBranch).getD []) (.str i)
                  (stashProps cn.dProps payload
                    ((storedRecord s c s.currentBranch (.str i)).getD []))))
              cn.keyProp cn.fnGetSourceInstanceByKey))
          s.currentBranch) := by
  have hrec : (storedRecord s c s.currentBranch (.str i)).getD [] =
      (alGet ((alGet cn.branchNodes s.currentBranch).getD []) (.str i)).getD [] := by
    unfold storedRecord
    simp only [h, Option.some_bind]
    cases alGet cn.branchNodes s.currentBranch with
    | none => simp [alGet]
    | some pool => simp
  rw [hrec]
  simp only [stash, Option.getD_some, h, resolveId, ensuredBranches_get]

theorem stash_fst (s : Store) (c : String) (cn : ClassNode) (payload : Obj) (i : String)
    (h : alGet s.storage c = some cn) :
    (stash s payload (some c) (some i)).1 = true := by
  rw [stash_eq s c cn payload i h]

theorem stash_currentBranch (s : Store) (payload : Obj) (fc fi : Option String) :
    (stash s payload fc fi).2.currentBranch = s.currentBranch := by
  simp only [stash]
  split
  · rfl
  · split
    · rfl
    · rfl

theorem stash_storedRecord (s : Store) (c : String) (cn : ClassNode) (payload : Obj)
    (i : String) (h : alGet s.storage c = some cn) :
    storedRecord (stash s payload (some c) (some i)).2 c s.currentBranch (.str i) =
      some (stashProps cn.dProps payload
        ((storedRecord s c s.currentBranch (.str i)).getD [])) := by
  rw [stash_eq s c cn payload i h]
  unfold storedRecord
  simp only [alGet_alSet_self, Option.some_bind]

theorem stash_storedVal (s : Store) (c : String) (cn : ClassNode) (payload : Obj)
    (i p : String) (h : alGet s.storage c = some cn) :
    storedVal (stash s payload (some c) (some i)).2 c s.currentBranch (.str i) p =
      if p ∈ cn.dProps ∧ (objGet payload p).isSome then objGet payload p
      else storedVal s c s.currentBranch (.str i) p := by
  unfold storedVal
  rw [stash_storedRecord s c cn payload i h, Option.some_bind, stashProps_get]
  cases hr : storedRecord s c s.currentBranch (.str i) with
  | none => simp [alGet]
  | some inst => simp

theorem stash_storage_node (s : Store) (c : String) (cn : ClassNode) (payload : Obj)
    (i : String) (h : alGet s.storage c = some cn) :
    ∃ cn', alGet (stash s payload (some c) (some i)).2.storage c = some cn' ∧
      cn'.dProps = cn.dProps ∧ cn'.keyProp = cn.keyProp := by
  rw [stash_eq s c cn payload i h]
  exact ⟨_, alGet_alSet_self _ _ _, rfl, rfl⟩

theorem stashProps_of_undefined (l : List String) (payload : Obj) (inst : InstanceProps)
    (h : ∀ p ∈ l, objGet payload p = none) : stashProps l payload inst = inst := by
  induction l generalizing inst with
  | nil => rfl
  | cons p tl ih =>
    have step : stashProps (p :: tl) payload inst =
        stashProps tl payload
          (match objGet payload p with
           | some v => alSet inst p v
           | none => inst) := rfl
    rw [step, h p (List.mem_cons_self p tl)]
    exact ih inst (fun q hq => h q (List.mem_cons_of_mem p hq))

theorem reassignProps_nil_inst (l : List String) (t : Obj) :
    reassignProps l ([] : InstanceProps) t = t := by
  induction l generalizing t with
  | nil => rfl
  | cons p tl ih => exact ih t

theorem reassign_found (s : Store) (c : String) (cn : ClassNode) (t : Obj) (i : String)
    (inst : InstanceProps) (h : alGet s.storage c = some cn)
    (hrec : storedRecord s c s.currentBranch (.str i) = some inst) :
    reassign s t (some c) (some i) = (true, reassignProps cn.dProps inst t, s) := by
  have hb : (alGet cn.branchNodes s.currentBranch).bind (fun pool => alGet pool (.str i)) =
      some inst := by
    unfold storedRecord at hrec
    rw [h, Option.some_bind] at hrec
    exact hrec
  cases hbr : alGet cn.branchNodes s.currentBranch with
  | none =>
    rw [hbr, Option.none_bind] at hb
    exact absurd hb (by simp)
  | some pool =>
    rw [hbr, Option.some_bind] at hb
    simp [reassign, resolveId, alHas, h, hbr, hb]

theorem reassign_missing (s : Store) (c : String) (cn : ClassNode) (t : Obj) (i : String)
    (h : alGet s.storage c = some cn)
    (hrec : storedRecord s c s.currentBranch (.str i) = none) :
    reassign s t (some c) (some i) = (false, t, s) := by
  have hb : (alGet cn.branchNodes s.currentBranch).bind (fun pool => alGet pool (.str i)) =
      none := by
    unfold storedRecord at hrec
    rw [h, Option.some_bind] at hrec
    exact hrec
  cases hbr : alGet cn.branchNodes s.currentBranch with
  | none => simp [reassign, resolveId, alHas, h, hbr]
  | some pool =>
    rw [hbr, Option.some_bind] at hb
    simp [reassign, resolveId, alHas, h, hbr, hb]

end Lemmas

/-! The claims. -/

/-- Claim C1: for every class registered with key property `"id"` and
tracked properties `{"a","b"}`, stashing the payload `{id:"x", a:1, b:2}`
and then reassigning into a target `{id:"x"}` of the same class on the
same branch returns `true`, and leaves the target equal to
`{id:"x", a:1, b:2}`. -/
theorem stash_reassign_roundtrip (c : String) :
    (registerClass emptyStore (.inl c) (some (.arr ["a", "b"])) (some "id") none).1 = true ∧
    (stash (registerClass emptyStore (.inl c) (some (.arr ["a", "b"])) (some "id") none).2
      (Obj.mk c [("id", .str "x"), ("a", .num 1), ("b", .num 2)]) (some c) none).1 = true ∧
    (reassign (stash (registerClass emptyStore (.inl c) (some (.arr ["a", "b"])) (some "id") none).2
      (Obj.mk c [("id", .str "x"), ("a", .num 1), ("b", .num 2)]) (some c) none).2
      (Obj.mk c [("id", .str "x")]) (some c) none).1 = true ∧
    (reassign (stash (registerClass emptyStore (.inl c) (some (.arr ["a", "b"])) (some "id") none).2
      (Obj.mk c [("id", .str "x"), ("a", .num 1), ("b", .num 2)]) (some c) none).2
      (Obj.mk c [("id", .str "x")]) (some c) none).2.1
      = Obj.mk c [("id", .str "x"), ("a", .num 1), ("b", .num 2)] := by
  simp [registerClass, stash, reassign, emptyStore, alHas, alGet, alSet, propsIndex0,
    propsToSet, jsSetOfList, resolveId, objGet, objSet, ensuredBranches, stashProps,
    reassignProps]

/-- Claim C2: stash is a field-level upsert merge.  For a registered class
and a stash on a `(class, current branch, instance)` triple, a tracked
property defined on the payload overwrites the stored value, and a tracked
property undefined on the payload leaves the previously stored entry
unchanged (never deleted); untracked properties are untouched as well. -/
theorem stash_field_level_upsert (s : Store) (c : String) (cn : ClassNode)
    (payload : Obj) (i p : String) (h : alGet s.storage c = some cn) :
    (stash s payload (some c) (some i)).1 = true ∧
    storedVal (stash s payload (some c) (some i)).2 c s.currentBranch (.str i) p =
      (if p ∈ cn.dProps ∧ (objGet payload p).isSome then objGet payload p
       else storedVal s c s.currentBranch (.str i) p) :=
  ⟨stash_fst s c cn payload i h, stash_storedVal s c cn payload i p h⟩

/-- Witness for C2, on the partial-merge example of the spec: stashing
`{id:"x", a:1}` after a prior stash of `{id:"x", a:0, b:2}` leaves a
record with `a:1` (overwritten) and `b:2` (untouched). -/
theorem stash_field_level_upsert_witness :
    storedVal (stash sAfterFull hx1 (some "Hero") (some "x")).2 "Hero" "*" (.str "x") "a" =
      some (.num 1) ∧
    storedVal (stash sAfterFull hx1 (some "Hero") (some "x")).2 "Hero" "*" (.str "x") "b" =
      some (.num 2) := by
  have ha := (stash_field_level_upsert sAfterFull "Hero"
    ⟨["a", "b"], [("*", [(.str "x", [("a", .num 0), ("b", .num 2)])])], "id", none⟩
    hx1 "x" "a" rfl).2
  have hb := (stash_field_level_upsert sAfterFull "Hero"
    ⟨["a", "b"], [("*", [(.str "x", [("a", .num 0), ("b", .num 2)])])], "id", none⟩
    hx1 "x" "b" rfl).2
  exact ⟨ha.trans (by decide), hb.trans (by decide)⟩

/-- Claim C3: branch isolation.  After stashing `{id:"x", a:1}` while the
current branch is `"A"`, switching to `"B"` makes reassign on `{id:"x"}`
return `false` with the target unchanged, and switching back to `"A"`
makes the same reassign return `true` and set `a:1`: the branch at call
time selects the instance pool. -/
theorem branch_isolation (c : String) :
    (reassign
      (switch (stash (switch (registerClass emptyStore (.inl c) (some (.arr ["a"])) (some "id") none).2
          (some "A")).2
        (Obj.mk c [("id", .str "x"), ("a", .num 1)]) (some c) none).2
        (some "B")).2
      (Obj.mk c [("id", .str "x")]) (some c) none).1 = false ∧
    (reassign
      (switch (stash (switch (registerClass emptyStore (.inl c) (some (.arr ["a"])) (some "id") none).2
          (some "A")).2
        (Obj.mk c [("id", .str "x"), ("a", .num 1)]) (some c) none).2
        (some "B")).2
      (Obj.mk c [("id", .str "x")]) (some c) none).2.1 = Obj.mk c [("id", .str "x")] ∧
    (reassign
      (switch (switch (stash (switch (registerClass emptyStore (.inl c) (some (.arr ["a"])) (some "id") none).2
          (some "A")).2
        (Obj.mk c [("id", .str "x"), ("a", .num 1)]) (some c) none).2
        (some "B")).2 (some "A")).2
      (Obj.mk c [("id", .str "x")]) (some c) none).1 = true ∧
    (reassign
      (switch (switch (stash (switch (registerClass emptyStore (.inl c) (some (.arr ["a"])) (some "id") none).2
          (some "A")).2
        (Obj.mk c [("id", .str "x"), ("a", .num 1)]) (some c) none).2
        (some "B")).2 (some "A")).2
      (Obj.mk c [("id", .str "x")]) (some c) none).2.1
      = Obj.mk c [("id", .str "x"), ("a", .num 1)] := by
  simp [registerClass, stash, reassign, switch, switchTo, emptyStore, alHas, alGet, alSet,
    propsIndex0, propsToSet, jsSetOfList, resolveId, objGet, objSet, ensuredBranches,
    stashProps, reassignProps]

/-- Claim C4: reassign is read-only on the registry and atomic on failure:
it always leaves the store unchanged, on any failure it leaves the target
unmodified, and it fails exactly on the cache-miss conditions
(unregistered class, unresolvable id, missing branch or missing record). -/
theorem reassign_readonly_atomic (s : Store) (t : Obj) (fc fi : Option String) :
    (reassign s t fc fi).2.2 = s ∧
    ((reassign s t fc fi).1 = false → (reassign s t fc fi).2.1 = t) ∧
    ((reassign s t fc fi).1 = false ↔ reassignMiss s t fc fi) := by
  simp only [reassign, reassignMiss, storedRecord]
  cases hc : alGet s.storage (fc.getD t.ctorName) with
  | none => simp
  | some cn =>
    cases hid : resolveId t cn.keyProp fi with
    | none => simp [hid]
    | some id =>
      cases hbr : alGet cn.branchNodes s.currentBranch with
      | none => simp [hid, alHas, hbr]
      | some pool =>
        cases hrec : alGet pool id with
        | none => simp [hid, alHas, hbr, hrec]
        | some inst => simp [hid, alHas, hbr, hrec]

/-- Witness for C4: at the empty store every reassign misses, leaving the
target and the store untouched. -/
theorem reassign_readonly_atomic_witness :
    (reassign emptyStore heroFreshTarget (some "Hero") none).2.1 = heroFreshTarget ∧
    (reassign emptyStore heroFreshTarget (some "Hero") none).2.2 = emptyStore := by
  have h := reassign_readonly_atomic emptyStore heroFreshTarget (some "Hero") none
  exact ⟨h.2.1 rfl, h.1⟩

/-- Claim C5 is contradicted by the code: the emptiness guard of
`registerClass` reads `dProps[0]`, which is `undefined` for every JS
`Set` (a `Set` has no indexed elements), so a first registration with a
non-empty `Set` of tracked properties returns `false` and registers
nothing, where the claim requires `true`. -/
theorem registerClass_rejects_nonempty_set :
    registerClass emptyStore (.inl "C") (some (.set ["a"])) none none = (false, emptyStore) :=
  rfl

/-- Claim C6 is contradicted by the code: on the delegation path
`stashByKey` calls `stash` (which succeeds, `true`) but has no `return`
statement, so its own JS return value is `undefined` (`none`), not the
boolean result of the stash. -/
theorem stashByKey_returns_undefined :
    (stash regHero (Obj.mk "Hero" [("a", .num 7)]) (some "Hero") (some "x")).1 = true ∧
    stashByKey regHero "Hero" "x" (some (Obj.mk "Hero" [("a", .num 7)])) =
      some (none, (stash regHero (Obj.mk "Hero" [("a", .num 7)]) (some "Hero") (some "x")).2) :=
  ⟨rfl, rfl⟩

/-- Counterexample to claim C7: `stashByKey` on a registered class with no
`forcedPayload` and no registered `fnGetSourceInstanceByKey` calls
`undefined(id)`, which throws a TypeError (modelled as `none`), aborting
the control flow of the caller. -/
theorem stashByKey_throws_counterexample :
    stashByKey regHero "Hero" "x" none = none :=
  rfl

/-- Claim C7 as amended: no operation throws except `stashByKey` when both
the forced payload and the registered source lookup of the class are absent;
in particular `stashByKey` completes normally whenever a payload is
supplied, or the class is unregistered, or its lookup is defined
(`registerClass`, `stash`, `reassign` and `switch` are total functions of
the embedding and cannot throw). -/
theorem stashByKey_no_throw_guarded (s : Store) (c i : String) (p : Option Obj)
    (hguard : p.isSome ∨ alGet s.storage c = none ∨
      ∃ cn, alGet s.storage c = some cn ∧ cn.fnGetSourceInstanceByKey.isSome) :
    (stashByKey s c i p).isSome := by
  unfold stashByKey
  cases hc : alGet s.storage c with
  | none => simp
  | some cn =>
    cases p with
    | some payload => simp
    | none =>
      cases hf2 : cn.fnGetSourceInstanceByKey with
      | some f => simp [hf2]
      | none =>
        exfalso
        rcases hguard with hg | hg | ⟨cn', hcn', hf⟩
        · simp at hg
        · rw [hc] at hg
          cases hg
        · rw [hc] at hcn'
          injection hcn' with he
          rw [← he] at hf
          rw [hf2] at hf
          simp at hf

/-- Witness for amended C7: `stashByKey` on an unregistered class
completes normally (returning `false`). -/
theorem stashByKey_no_throw_guarded_witness :
    (stashByKey emptyStore "C" "x" none).isSome :=
  stashByKey_no_throw_guarded emptyStore "C" "x" none (Or.inr (Or.inl rfl))

/-- Claim C8: `switch` always returns `true`; with no argument it sets the
current branch to `"*"`, otherwise to the given branch (a no-op when
already current); it never touches the class storage (so it creates and
removes no ClassNode, Branch or InstanceRecord); and calling it twice with
the same argument is observably identical to calling it once. -/
theorem switch_semantics (s : Store) (b : Option String) :
    (switch s b).1 = true ∧
    (switch s b).2.storage = s.storage ∧
    (switch s b).2.currentBranch = b.getD "*" ∧
    switch (switch s b).2 b = switch s b := by
  cases b with
  | none =>
    by_cases h : s.currentBranch = "*"
    · simp [switch, switchTo, h]
    · have h2 : ¬ ("*" = s.currentBranch) := fun e => h e.symm
      simp [switch, switchTo, h, h2]
  | some bb =>
    by_cases h : bb = s.currentBranch
    · simp [switch, switchTo, h]
    · simp [switch, switchTo, h]

/-- Claim C9: untracked properties are never stored nor restored.
Stashing leaves the stored value of every untracked property name
unchanged, and reassigning writes only tracked properties that have a
stored entry: any other property of the target keeps its value. -/
theorem untracked_never_stored_nor_restored (s : Store) (c : String) (cn : ClassNode)
    (payload t : Obj) (i p : String) (h : alGet s.storage c = some cn) :
    (p ∉ cn.dProps →
      storedVal (stash s payload (some c) (some i)).2 c s.currentBranch (.str i) p =
        storedVal s c s.currentBranch (.str i) p) ∧
    ((p ∉ cn.dProps ∨ storedVal s c s.currentBranch (.str i) p = none) →
      objGet (reassign s t (some c) (some i)).2.1 p = objGet t p) := by
  constructor
  · intro hp
    rw [stash_storedVal s c cn payload i p h]
    simp [hp]
  · intro hp
    cases hrec : storedRecord s c s.currentBranch (.str i) with
    | none => rw [reassign_missing s c cn t i h hrec]
    | some inst =>
      rw [reassign_found s c cn t i inst h hrec, reassignProps_get]
      rcases hp with hp | hp
      · simp [hp]
      · have hnone : alGet inst p = none := by
          unfold storedVal at hp
          rw [hrec, Option.some_bind] at hp
          exact hp
        simp [hnone]

/-- Witness for C9, on the example of the spec: with `trackedProps={"a"}`,
stashing `{id:"x", a:1, z:99}` stores nothing under `"z"`, and a
subsequent reassign into `{id:"x", z:0}` leaves `z` at `0`. -/
theorem untracked_never_stored_nor_restored_witness :
    storedVal sGad "Gad" "*" (.str "x") "z" = none ∧
    objGet (reassign sGad gadTarget (some "Gad") (some "x")).2.1 "z" = some (.num 0) := by
  have h1 := (untracked_never_stored_nor_restored regGad "Gad"
    ⟨["a"], [], "id", none⟩ gadPayload gadTarget "x" "z" rfl).1 (by decide)
  have h2 := (untracked_never_stored_nor_restored sGad "Gad"
    ⟨["a"], [("*", [(.str "x", [("a", .num 1)])])], "id", none⟩
    gadPayload gadTarget "x" "z" rfl).2 (Or.inl (by decide))
  exact ⟨h1.trans (by decide), h2.trans (by decide)⟩

/-- Claim C10: a stash that stores nothing still creates a hit.  For a
registered class, a stash whose forced id resolves but whose payload
defines none of the tracked properties returns `true` and lazily creates
the current branch and an empty instance record, so that a subsequent
reassign for the same (class, branch, id) returns `true` while writing no
property to the target. -/
theorem empty_stash_still_hits (s : Store) (c : String) (cn : ClassNode)
    (payload t : Obj) (i : String)
    (h : alGet s.storage c = some cn)
    (hfresh : storedRecord s c s.currentBranch (.str i) = none)
    (hund : ∀ p ∈ cn.dProps, objGet payload p = none) :
    (stash s payload (some c) (some i)).1 = true ∧
    storedRecord (stash s payload (some c) (some i)).2 c s.currentBranch (.str i) =
      some ([] : InstanceProps) ∧
    reassign (stash s payload (some c) (some i)).2 t (some c) (some i) =
      (true, t, (stash s payload (some c) (some i)).2) := by
  have hrec := stash_storedRecord s c cn payload i h
  rw [hfresh] at hrec
  rw [stashProps_of_undefined cn.dProps payload _ hund] at hrec
  refine ⟨stash_fst s c cn payload i h, hrec, ?_⟩
  obtain ⟨cn', h', hd, hk⟩ := stash_storage_node s c cn payload i h
  have hcur : (stash s payload (some c) (some i)).2.currentBranch = s.currentBranch :=
    stash_currentBranch s payload (some c) (some i)
  have hrec' : storedRecord (stash s payload (some c) (some i)).2 c
      (stash s payload (some c) (some i)).2.currentBranch (.str i) = some [] := by
    rw [hcur]
    exact hrec
  have := reassign_found (stash s payload (some c) (some i)).2 c cn' t i [] h' hrec'
  rw [this, reassignProps_nil_inst]

/-- Witness for C10: stashing a payload with no tracked property under a
fresh id `"y"` succeeds, and the subsequent reassign hits while leaving
the blank target untouched. -/
theorem empty_stash_still_hits_witness :
    (stash regHero heroNoProps (some "Hero") (some "y")).1 = true ∧
    reassign (stash regHero heroNoProps (some "Hero") (some "y")).2 heroFreshTarget
        (some "Hero") (some "y") =
      (true, heroFreshTarget, (stash regHero heroNoProps (some "Hero") (some "y")).2) := by
  have h := empty_stash_still_hits regHero "Hero" ⟨["a", "b"], [], "id", none⟩
    heroNoProps heroFreshTarget "y" rfl rfl (by decide)
  exact ⟨h.1, h.2.2⟩

end statefuld
